import Mathlib

/-!
Verification of a command-line to-do application (Go, `src/main.go`).

The in-memory store (`TodoList`) holds a slice of `Todo` records, an id
counter, and a `changed` (dirty) flag.  Persistence serializes the slice
to a JSON file; loading decodes it back.  We shallowly embed the store
operations as pure functions; file I/O is modelled by an explicit
`DiskFile` value and an explicit outcome for each fallible system call.
Timestamps are abstract values (`Nat`); JSON round-trips them unchanged.
-/

/-- A single task, mirroring `type Todo struct` in `src/main.go`. -/
structure Todo where
  id : Int
  title : String
  completed : Bool
  createdAt : Nat
deriving DecidableEq, Repr

/-- The store, mirroring `type TodoList struct` (the mutex is not modelled:
all operations are already atomic in this embedding). -/
structure TodoList where
  todos : List Todo
  idCounter : Int
  changed : Bool
deriving DecidableEq, Repr

/-- `&TodoList{}` — the Go zero value the program starts from. -/
def initialTodoList : TodoList := { todos := [], idCounter := 0, changed := false }

/-- `CreateTodo`: increments the counter, appends a record with the new id,
`Completed=false` and the current time, and marks the store dirty. -/
def CreateTodo (t : TodoList) (title : String) (now : Nat) : TodoList :=
  let newId := t.idCounter + 1
  { t with
    idCounter := newId
    todos := t.todos ++ [{ id := newId, title := title, completed := false, createdAt := now }]
    changed := true }

/-- The linear scan inside `UpdateTodo`: rewrites the first record whose id
matches (keeping the title when `newTitle` is empty, always overwriting
`Completed`), or returns `none` when no record matches. -/
def updateTodos (l : List Todo) (id : Int) (newTitle : String) (completed : Bool) :
    Option (List Todo) :=
  match l with
  | [] => none
  | todo :: rest =>
    if todo.id = id then
      some ({ todo with
              title := if newTitle ≠ "" then newTitle else todo.title
              completed := completed } :: rest)
    else
      match updateTodos rest id newTitle completed with
      | some rest' => some (todo :: rest')
      | none => none

/-- `UpdateTodo`: returns the new store and whether the id was found
(`true` = "To-Do updated successfully.", `false` = "To-Do not found.").
Only a successful update sets the dirty flag. -/
def UpdateTodo (t : TodoList) (id : Int) (newTitle : String) (completed : Bool) :
    TodoList × Bool :=
  match updateTodos t.todos id newTitle completed with
  | some todos' => ({ t with todos := todos', changed := true }, true)
  | none => (t, false)

/-- The linear scan inside `DeleteTodo`: removes the first record whose id
matches (`append(t.todos[:i], t.todos[i+1:]...)`), or `none` if absent. -/
def deleteTodos (l : List Todo) (id : Int) : Option (List Todo) :=
  match l with
  | [] => none
  | todo :: rest =>
    if todo.id = id then some rest
    else
      match deleteTodos rest id with
      | some rest' => some (todo :: rest')
      | none => none

/-- `DeleteTodo`: returns the new store and whether the id was found.
Only a successful delete sets the dirty flag. -/
def DeleteTodo (t : TodoList) (id : Int) : TodoList × Bool :=
  match deleteTodos t.todos id with
  | some todos' => ({ t with todos := todos', changed := true }, true)
  | none => (t, false)

/-- The persisted file (`todos.json`) as the embedding sees it:
absent; unopenable for another reason; present but syntactically invalid
JSON (the decoder reports the error before writing anything); well-formed
JSON some of whose values mismatch the target types — `encoding/json`
skips each mismatched value, fills in what it can, and still returns an
`UnmarshalTypeError`, so `mismatched decoded` records the partially decoded
slice the store ends up with; or a fully well-formed snapshot. -/
inductive DiskFile
  | missing
  | unreadable
  | corrupt
  | mismatched (decoded : List Todo)
  | valid (todos : List Todo)
deriving DecidableEq, Repr

/-- Outcome of the two fallible calls inside `SaveToFile`:
`os.Create` may fail (file untouched), `encoder.Encode` may fail
(file already truncated), or both succeed. -/
inductive SaveOutcome
  | ok
  | createErr
  | encodeErr
deriving DecidableEq, Repr

/-- `SaveToFile`: on success writes the task slice (not the counter) to the
file and clears the dirty flag, returning `true` (`err == nil`); on any
failure it returns early, leaving the store — in particular `changed` —
untouched. -/
def SaveToFile (t : TodoList) (res : SaveOutcome) (f : DiskFile) :
    TodoList × DiskFile × Bool :=
  match res with
  | .ok => ({ t with changed := false }, .valid t.todos, true)
  | .createErr => (t, f, false)
  | .encodeErr => (t, .corrupt, false)

/-- Outcome of `LoadFromFile` as seen by its caller:
`nil`, an `os.IsNotExist` open error, another open error,
or a JSON decode error. -/
inductive LoadOutcome
  | ok
  | notExist
  | openErr
  | decodeErr
deriving DecidableEq, Repr

/-- `LoadFromFile`: replaces the task slice wholesale from a well-formed
file.  An open failure or a JSON syntax error returns early with the store
untouched, but `decoder.Decode(&t.todos)` on type-mismatched JSON both
writes the partially decoded slice into the store and returns an error
(documented Unmarshal skip-and-report behaviour).  It never touches
`idCounter` or `changed`. -/
def LoadFromFile (t : TodoList) (f : DiskFile) : TodoList × LoadOutcome :=
  match f with
  | .missing => (t, .notExist)
  | .unreadable => (t, .openErr)
  | .corrupt => (t, .decodeErr)
  | .mismatched ts => ({ t with todos := ts }, .decodeErr)
  | .valid ts => ({ t with todos := ts }, .ok)

/-- The startup sequence in `main`: load `todos.json` into a fresh store;
an error is printed ("Error loading file:") exactly when the load failed
for a reason other than `os.IsNotExist`; startup continues regardless. -/
def startupLoad (f : DiskFile) : TodoList × Bool :=
  let (t, e) := LoadFromFile initialTodoList f
  (t, decide (e ≠ LoadOutcome.ok ∧ e ≠ LoadOutcome.notExist))

/-- One tick of `AutoSave`: read `t.changed` under the lock and call
`SaveToFile` only if it is set.  The final component records whether a
save was invoked on this tick. -/
def autoSaveTick (t : TodoList) (res : SaveOutcome) (f : DiskFile) :
    TodoList × DiskFile × Bool :=
  let shouldSave := t.changed
  if shouldSave then
    let (t', f', _) := SaveToFile t res f
    (t', f', true)
  else (t, f, false)

/-- A run of consecutive `AutoSave` ticks (no interleaved store mutations),
one `SaveOutcome` per tick; returns the final store, the final file, and
the per-tick "save invoked" flags in order. -/
def autoSaveRun (t : TodoList) (f : DiskFile) : List SaveOutcome → TodoList × DiskFile × List Bool
  | [] => (t, f, [])
  | res :: rest =>
    let (t', f', invoked) := autoSaveTick t res f
    let (t'', f'', invs) := autoSaveRun t' f' rest
    (t'', f'', invoked :: invs)

/-- An operation on the store, as issued by the interactive shell or the
auto-save loop. -/
inductive Op
  | create (title : String) (now : Nat)
  | update (id : Int) (newTitle : String) (completed : Bool)
  | delete (id : Int)
  | save (res : SaveOutcome)
  | load
deriving DecidableEq, Repr

/-- Whether an operation is a `load`. -/
def Op.isLoad : Op → Bool
  | .load => true
  | _ => false

/-- Whether an operation is a `create`. -/
def Op.isCreate : Op → Bool
  | .create _ _ => true
  | _ => false

/-- Execute one operation against the store and the persisted file. -/
def runOp (t : TodoList) (f : DiskFile) : Op → TodoList × DiskFile
  | .create title now => (CreateTodo t title now, f)
  | .update id nt c => ((UpdateTodo t id nt c).1, f)
  | .delete id => ((DeleteTodo t id).1, f)
  | .save res =>
    let (t', f', _) := SaveToFile t res f
    (t', f')
  | .load => ((LoadFromFile t f).1, f)

/-- Execute a sequence of operations. -/
def runOps (t : TodoList) (f : DiskFile) : List Op → TodoList × DiskFile
  | [] => (t, f)
  | op :: rest => runOps (runOp t f op).1 (runOp t f op).2 rest

/-- The ids handed out by the `create` operations of a trace, in order. -/
def assignedIds (t : TodoList) (f : DiskFile) : List Op → List Int
  | [] => []
  | op :: rest =>
    match op with
    | .create _ _ => (t.idCounter + 1) :: assignedIds (runOp t f op).1 (runOp t f op).2 rest
    | _ => assignedIds (runOp t f op).1 (runOp t f op).2 rest

/-- Number of `create` operations in a trace. -/
def createCount : List Op → Nat
  | [] => 0
  | op :: rest => (if op.isCreate then 1 else 0) + createCount rest

/-- The store invariant claimed by the spec: task ids are pairwise distinct
and no id exceeds the counter. -/
def storeInv (t : TodoList) : Prop :=
  (t.todos.map Todo.id).Nodup ∧ ∀ i ∈ t.todos.map Todo.id, i ≤ t.idCounter

/-! ### Helper lemmas about the linear scans -/

lemma updateTodos_eq_none_iff (l : List Todo) (id : Int) (nt : String) (c : Bool) :
    updateTodos l id nt c = none ↔ ∀ todo ∈ l, todo.id ≠ id := by
  induction l with
  | nil => simp [updateTodos]
  | cons todo rest ih =>
    by_cases h : todo.id = id
    · simp [updateTodos, h]
    · cases hrec : updateTodos rest id nt c with
      | none =>
        simp only [updateTodos, if_neg h, hrec, true_iff, List.mem_cons, ne_eq,
          forall_eq_or_imp]
        exact ⟨h, ih.mp hrec⟩
      | some rest' =>
        simp only [updateTodos, if_neg h, hrec]
        constructor
        · intro hc; exact absurd hc (by simp)
        · intro hall
          have : updateTodos rest id nt c = none := by
            rw [ih]; intro x hx; exact hall x (List.mem_cons_of_mem _ hx)
          rw [this] at hrec; exact absurd hrec (by simp)

lemma deleteTodos_eq_none_iff (l : List Todo) (id : Int) :
    deleteTodos l id = none ↔ ∀ todo ∈ l, todo.id ≠ id := by
  induction l with
  | nil => simp [deleteTodos]
  | cons todo rest ih =>
    by_cases h : todo.id = id
    · simp [deleteTodos, h]
    · cases hrec : deleteTodos rest id with
      | none =>
        simp only [deleteTodos, if_neg h, hrec, true_iff, List.mem_cons, ne_eq,
          forall_eq_or_imp]
        exact ⟨h, ih.mp hrec⟩
      | some rest' =>
        simp only [deleteTodos, if_neg h, hrec]
        constructor
        · intro hc; exact absurd hc (by simp)
        · intro hall
          have : deleteTodos rest id = none := by
            rw [ih]; intro x hx; exact hall x (List.mem_cons_of_mem _ hx)
          rw [this] at hrec; exact absurd hrec (by simp)

lemma deleteTodos_sublist (l : List Todo) (id : Int) (l' : List Todo)
    (h : deleteTodos l id = some l') : l'.Sublist l := by
  induction l generalizing l' with
  | nil => simp [deleteTodos] at h
  | cons todo rest ih =>
    by_cases hid : todo.id = id
    · simp only [deleteTodos, if_pos hid, Option.some.injEq] at h
      exact h ▸ List.sublist_cons_self _ _
    · simp only [deleteTodos, if_neg hid] at h
      cases hrec : deleteTodos rest id with
      | none => rw [hrec] at h; exact absurd h (by simp)
      | some rest' =>
        rw [hrec] at h
        simp only [Option.some.injEq] at h
        exact h ▸ List.Sublist.cons₂ _ (ih rest' hrec)

lemma updateTodos_map_id (l : List Todo) (id : Int) (nt : String) (c : Bool) (l' : List Todo)
    (h : updateTodos l id nt c = some l') : l'.map Todo.id = l.map Todo.id := by
  induction l generalizing l' with
  | nil => simp [updateTodos] at h
  | cons todo rest ih =>
    by_cases hid : todo.id = id
    · simp only [updateTodos, if_pos hid, Option.some.injEq] at h
      subst h; simp
    · simp only [updateTodos, if_neg hid] at h
      cases hrec : updateTodos rest id nt c with
      | none => rw [hrec] at h; exact absurd h (by simp)
      | some rest' =>
        rw [hrec] at h
        simp only [Option.some.injEq] at h
        subst h; simp [ih rest' hrec]

lemma deleteTodos_not_mem (l : List Todo) (id : Int) (l' : List Todo)
    (hnd : (l.map Todo.id).Nodup) (h : deleteTodos l id = some l') :
    ∀ todo ∈ l', todo.id ≠ id := by
  induction l generalizing l' with
  | nil => simp [deleteTodos] at h
  | cons todo rest ih =>
    simp only [List.map_cons, List.nodup_cons] at hnd
    by_cases hid : todo.id = id
    · simp only [deleteTodos, if_pos hid, Option.some.injEq] at h
      subst h
      intro x hx hxid
      exact hnd.1 (hid ▸ hxid ▸ List.mem_map_of_mem Todo.id hx)
    · simp only [deleteTodos, if_neg hid] at h
      cases hrec : deleteTodos rest id with
      | none => rw [hrec] at h; exact absurd h (by simp)
      | some rest' =>
        rw [hrec] at h
        simp only [Option.some.injEq] at h
        subst h
        intro x hx
        rcases List.mem_cons.mp hx with rfl | hx'
        · exact hid
        · exact ih rest' hnd.2 hrec x hx'

lemma updateTodos_found (l : List Todo) (id : Int) (nt : String) (c : Bool)
    (h : ∃ todo ∈ l, todo.id = id) :
    ∃ pre old post, l = pre ++ old :: post ∧ (∀ x ∈ pre, x.id ≠ id) ∧ old.id = id ∧
      updateTodos l id nt c =
        some (pre ++ { old with
                       title := if nt ≠ "" then nt else old.title
                       completed := c } :: post) := by
  induction l with
  | nil => simp at h
  | cons todo rest ih =>
    by_cases hid : todo.id = id
    · exact ⟨[], todo, rest, by simp, by simp, hid, by simp [updateTodos, hid]⟩
    · have hrest : ∃ x ∈ rest, x.id = id := by
        rcases h with ⟨x, hx, hxid⟩
        rcases List.mem_cons.mp hx with rfl | hx'
        · exact absurd hxid hid
        · exact ⟨x, hx', hxid⟩
      rcases ih hrest with ⟨pre, old, post, heq, hpre, hold, hupd⟩
      refine ⟨todo :: pre, old, post, by simp [heq], ?_, hold, ?_⟩
      · intro x hx
        rcases List.mem_cons.mp hx with rfl | hx'
        · exact hid
        · exact hpre x hx'
      · simp only [updateTodos, if_neg hid, hupd, List.cons_append]

/-! ### Fixed example stores used by witnesses and counterexamples -/

/-- A record used in concrete witnesses. -/
def wTodo : Todo := { id := 1, title := "walk", completed := false, createdAt := 5 }

/-- A clean one-record store used in concrete witnesses. -/
def wStore : TodoList := { todos := [wTodo], idCounter := 1, changed := false }

/-- `wStore` with pending changes. -/
def wDirty : TodoList := { todos := [wTodo], idCounter := 1, changed := true }

/-- Two records sharing id 1 (as a persisted file can contain). -/
def dupTodoA : Todo := { id := 1, title := "a", completed := false, createdAt := 0 }

/-- Second record with the duplicated id 1. -/
def dupTodoB : Todo := { id := 1, title := "b", completed := false, createdAt := 0 }

/-- A store holding two records with the same id, as produced by loading a
file that contains duplicate ids. -/
def dupStore : TodoList := { todos := [dupTodoA, dupTodoB], idCounter := 0, changed := false }

/-- The record the decoder leaves behind for
`[{"id":"one","title":"a","completed":false,"created_at":...}]`: the
mismatched `id` keeps its zero value while the other fields decode. -/
def mismatchTodo : Todo := { id := 0, title := "a", completed := false, createdAt := 0 }

/-! ### C3, C10: update/delete behaviour -/

/-- C3: when the id is present, `UpdateTodo` reports found, sets the dirty
flag, and rewrites exactly the first matching record: the title is replaced
iff `newTitle` is non-empty, and `completed` is always overwritten. -/
theorem updateTodo_title_completed (t : TodoList) (id : Int) (nt : String) (c : Bool)
    (h : ∃ todo ∈ t.todos, todo.id = id) :
    (UpdateTodo t id nt c).2 = true ∧
    (UpdateTodo t id nt c).1.changed = true ∧
    ∃ pre old post,
      t.todos = pre ++ old :: post ∧ (∀ x ∈ pre, x.id ≠ id) ∧ old.id = id ∧
      (UpdateTodo t id nt c).1.todos =
        pre ++ { old with
                 title := if nt ≠ "" then nt else old.title
                 completed := c } :: post := by
  rcases updateTodos_found t.todos id nt c h with ⟨pre, old, post, heq, hpre, hold, hupd⟩
  refine ⟨?_, ?_, pre, old, post, heq, hpre, hold, ?_⟩ <;> simp [UpdateTodo, hupd]

/-- Witness for C3 at a concrete store: updating id 1 of `wStore` with an
empty title keeps the title, overwrites `completed`, and marks dirty. -/
theorem updateTodo_title_completed_witness :
    (∃ todo ∈ wStore.todos, todo.id = 1) ∧
    ((UpdateTodo wStore 1 "" true).2 = true ∧
     (UpdateTodo wStore 1 "" true).1.changed = true ∧
     ∃ pre old post,
       wStore.todos = pre ++ old :: post ∧ (∀ x ∈ pre, x.id ≠ 1) ∧ old.id = 1 ∧
       (UpdateTodo wStore 1 "" true).1.todos =
         pre ++ { old with
                  title := if "" ≠ "" then "" else old.title
                  completed := true } :: post) :=
  ⟨⟨wTodo, by simp [wStore], rfl⟩,
   updateTodo_title_completed wStore 1 "" true ⟨wTodo, by simp [wStore], rfl⟩⟩

/-- C10: when no record has the given id, `UpdateTodo` and `DeleteTodo`
return the store completely unchanged — tasks, counter and dirty flag —
and report not-found. -/
theorem notfound_is_noop (t : TodoList) (id : Int) (nt : String) (c : Bool)
    (h : ∀ todo ∈ t.todos, todo.id ≠ id) :
    UpdateTodo t id nt c = (t, false) ∧ DeleteTodo t id = (t, false) := by
  constructor
  · simp [UpdateTodo, (updateTodos_eq_none_iff t.todos id nt c).mpr h]
  · simp [DeleteTodo, (deleteTodos_eq_none_iff t.todos id).mpr h]

/-- Witness for C10: id 2 is absent from `wStore`; update and delete of id 2
leave it untouched. -/
theorem notfound_is_noop_witness :
    (∀ todo ∈ wStore.todos, todo.id ≠ (2 : Int)) ∧
    UpdateTodo wStore 2 "x" true = (wStore, false) ∧ DeleteTodo wStore 2 = (wStore, false) :=
  ⟨by decide, notfound_is_noop wStore 2 "x" true (by decide)⟩

/-! ### C7: delete then update -/

/-- C7 as stated is false: `dupStore` (reachable by loading a file whose JSON
array repeats id 1) still finds id 1 on update after deleting id 1. -/
theorem delete_then_update_found_on_dup :
    (runOps initialTodoList (DiskFile.valid [dupTodoA, dupTodoB]) [Op.load]).1 = dupStore ∧
    (UpdateTodo (DeleteTodo dupStore 1).1 1 "x" true).2 = true := by
  constructor
  · rfl
  · rfl

/-- C7 amended: on a store whose task ids are pairwise distinct, a delete of
an id followed by an update of the same id always reports not-found. -/
theorem delete_then_update_notfound (t : TodoList) (id : Int) (nt : String) (c : Bool)
    (h : (t.todos.map Todo.id).Nodup) :
    (UpdateTodo (DeleteTodo t id).1 id nt c).2 = false := by
  cases hd : deleteTodos t.todos id with
  | none =>
    have hall := (deleteTodos_eq_none_iff t.todos id).mp hd
    simp only [DeleteTodo, hd]
    simp [UpdateTodo, (updateTodos_eq_none_iff t.todos id nt c).mpr hall]
  | some l' =>
    have hall := deleteTodos_not_mem t.todos id l' h hd
    simp only [DeleteTodo, hd]
    simp [UpdateTodo, (updateTodos_eq_none_iff l' id nt c).mpr hall]

/-- Witness for amended C7: `wStore` has distinct ids, and delete 1 then
update 1 reports not-found. -/
theorem delete_then_update_notfound_witness :
    (wStore.todos.map Todo.id).Nodup ∧
    (UpdateTodo (DeleteTodo wStore 1).1 1 "x" true).2 = false :=
  ⟨by decide, delete_then_update_notfound wStore 1 "x" true (by decide)⟩

/-! ### C4, C8, C9: persistence -/

/-- C4: a successful save of any store, loaded into a fresh store, restores
exactly the task sequence (ids, titles, flags, timestamps, order), while the
fresh store's id counter keeps its initial value. -/
theorem save_then_load_roundtrip (t : TodoList) (f : DiskFile) :
    (SaveToFile t SaveOutcome.ok f).2.2 = true ∧
    (LoadFromFile initialTodoList (SaveToFile t SaveOutcome.ok f).2.1).2 = LoadOutcome.ok ∧
    (LoadFromFile initialTodoList (SaveToFile t SaveOutcome.ok f).2.1).1.todos = t.todos ∧
    (LoadFromFile initialTodoList (SaveToFile t SaveOutcome.ok f).2.1).1.idCounter
      = initialTodoList.idCounter := by
  simp [SaveToFile, LoadFromFile, initialTodoList]

/-- C8: a failed save (create or encode error) reports failure and leaves the
dirty flag set, so the changes are still pending for a retry. -/
theorem save_failure_keeps_dirty (t : TodoList) (res : SaveOutcome) (f : DiskFile)
    (hres : res ≠ SaveOutcome.ok) (hdirty : t.changed = true) :
    (SaveToFile t res f).1.changed = true ∧ (SaveToFile t res f).2.2 = false := by
  cases res with
  | ok => exact absurd rfl hres
  | createErr => exact ⟨hdirty, rfl⟩
  | encodeErr => exact ⟨hdirty, rfl⟩

/-- Witness for C8: an encode failure on a dirty store keeps it dirty. -/
theorem save_failure_keeps_dirty_witness :
    SaveOutcome.encodeErr ≠ SaveOutcome.ok ∧ wDirty.changed = true ∧
    (SaveToFile wDirty SaveOutcome.encodeErr DiskFile.missing).1.changed = true ∧
    (SaveToFile wDirty SaveOutcome.encodeErr DiskFile.missing).2.2 = false :=
  ⟨by decide, rfl,
   save_failure_keeps_dirty wDirty SaveOutcome.encodeErr DiskFile.missing (by decide) rfl⟩

/-- C9 counterexample: a startup load of a type-mismatched file reports the
format error, yet the process continues with a NON-empty store — the decoder
partially populated the slice — so "continues with an empty store" is false. -/
theorem startup_mismatch_not_empty :
    (startupLoad (DiskFile.mismatched [mismatchTodo])).2 = true ∧
    (startupLoad (DiskFile.mismatched [mismatchTodo])).1.todos ≠ [] := by
  decide

/-- C9 amended: at startup, a missing file is silent and leaves the fresh
store empty; any other open or format error is reported but startup
continues.  The store stays empty when the file cannot be opened or its
JSON is syntactically invalid, but after a reported type-mismatch decode it
holds whatever the decoder managed to fill in. -/
theorem startup_load_error_handling (ts : List Todo) :
    (startupLoad DiskFile.missing).1 = initialTodoList ∧
    (startupLoad DiskFile.missing).2 = false ∧
    (startupLoad DiskFile.unreadable).1 = initialTodoList ∧
    (startupLoad DiskFile.unreadable).2 = true ∧
    (startupLoad DiskFile.corrupt).1 = initialTodoList ∧
    (startupLoad DiskFile.corrupt).2 = true ∧
    (startupLoad (DiskFile.mismatched ts)).2 = true ∧
    (startupLoad (DiskFile.mismatched ts)).1.todos = ts := by
  exact ⟨rfl, rfl, rfl, rfl, rfl, rfl, rfl, rfl⟩

/-! ### C5: the dirty flag -/

/-- C5 as stated is false: an `UpdateTodo` whose id is absent (here, on the
empty initial store) is an Update operation after which the dirty flag is
still false. -/
theorem update_miss_leaves_clean :
    (UpdateTodo initialTodoList 1 "x" true).1.changed = false := by
  rfl

/-- C5 amended: the dirty flag is false after every successful save, true
after every create, and true after every update or delete that found its
target. -/
theorem dirty_flag_discipline (t : TodoList) (title : String) (now : Nat)
    (id : Int) (nt : String) (c : Bool) (f : DiskFile) :
    (SaveToFile t SaveOutcome.ok f).1.changed = false ∧
    (CreateTodo t title now).changed = true ∧
    ((UpdateTodo t id nt c).2 = true → (UpdateTodo t id nt c).1.changed = true) ∧
    ((DeleteTodo t id).2 = true → (DeleteTodo t id).1.changed = true) := by
  refine ⟨rfl, rfl, ?_, ?_⟩
  · cases h : updateTodos t.todos id nt c <;> simp [UpdateTodo, h]
  · cases h : deleteTodos t.todos id <;> simp [DeleteTodo, h]

/-- Witness for amended C5: on `wStore`, update and delete of the present
id 1 report found and leave the store dirty. -/
theorem dirty_flag_discipline_witness :
    ((UpdateTodo wStore 1 "x" true).2 = true ∧
     (UpdateTodo wStore 1 "x" true).1.changed = true) ∧
    ((DeleteTodo wStore 1).2 = true ∧ (DeleteTodo wStore 1).1.changed = true) :=
  ⟨⟨rfl, (dirty_flag_discipline wStore "w" 0 1 "x" true DiskFile.missing).2.2.1 rfl⟩,
   ⟨rfl, (dirty_flag_discipline wStore "w" 0 1 "x" true DiskFile.missing).2.2.2 rfl⟩⟩

/-! ### C6: the auto-save loop -/

lemma autoSaveTick_clean (t : TodoList) (res : SaveOutcome) (f : DiskFile)
    (h : t.changed = false) : autoSaveTick t res f = (t, f, false) := by
  simp [autoSaveTick, h]

lemma autoSaveRun_clean (t : TodoList) (f : DiskFile) (ress : List SaveOutcome)
    (h : t.changed = false) :
    autoSaveRun t f ress = (t, f, List.replicate ress.length false) := by
  induction ress with
  | nil => simp [autoSaveRun]
  | cons r rest ih => simp [autoSaveRun, autoSaveTick_clean t r f h, ih, List.replicate_succ]

/-- C6: when the dirty flag is clear at the check, a tick invokes no save,
and a whole run of ticks with no interleaved mutation never invokes one. -/
theorem autosave_skips_when_clean (t : TodoList) (res : SaveOutcome) (f : DiskFile)
    (ress : List SaveOutcome) (h : t.changed = false) :
    (autoSaveTick t res f).2.2 = false ∧
    ∀ b ∈ (autoSaveRun t f ress).2.2, b = false := by
  refine ⟨by simp [autoSaveTick, h], ?_⟩
  rw [autoSaveRun_clean t f ress h]
  exact fun b hb => List.eq_of_mem_replicate hb

/-- Witness for C6: a clean store over two ticks invokes no save on the
first tick. -/
theorem autosave_skips_when_clean_witness :
    (autoSaveTick wStore SaveOutcome.ok DiskFile.missing).2.2 = false :=
  (autosave_skips_when_clean wStore SaveOutcome.ok DiskFile.missing
    [SaveOutcome.ok, SaveOutcome.ok] rfl).1

/-! ### C1: ids assigned by create along any trace -/

lemma runOp_idCounter (t : TodoList) (f : DiskFile) (op : Op) :
    (runOp t f op).1.idCounter = t.idCounter + (if op.isCreate then 1 else 0) := by
  cases op with
  | create title now => simp [runOp, CreateTodo, Op.isCreate]
  | update id nt c =>
    cases h : updateTodos t.todos id nt c <;> simp [runOp, UpdateTodo, h, Op.isCreate]
  | delete id =>
    cases h : deleteTodos t.todos id <;> simp [runOp, DeleteTodo, h, Op.isCreate]
  | save res => cases res <;> simp [runOp, SaveToFile, Op.isCreate]
  | load => cases f <;> simp [runOp, LoadFromFile, Op.isCreate]

lemma assignedIds_formula (ops : List Op) : ∀ (t : TodoList) (f : DiskFile),
    assignedIds t f ops
      = (List.range (createCount ops)).map (fun i : ℕ => t.idCounter + 1 + (i : ℤ)) := by
  induction ops with
  | nil => intro t f; simp [assignedIds, createCount]
  | cons op rest ih =>
    intro t f
    have hcnt := runOp_idCounter t f op
    cases op with
    | create title now =>
      have h1 : (runOp t f (Op.create title now)).1.idCounter = t.idCounter + 1 := by
        simpa [Op.isCreate] using hcnt
      simp only [assignedIds, createCount, Op.isCreate, if_true]
      rw [ih, h1, Nat.add_comm 1 (createCount rest), List.range_succ_eq_map, List.map_cons,
        List.map_map]
      congr 1
      · simp
      · refine List.map_congr_left ?_
        intro i hi
        simp only [Function.comp]
        push_cast
        ring
    | update id nt c =>
      have h1 : (runOp t f (Op.update id nt c)).1.idCounter = t.idCounter := by
        simpa [Op.isCreate] using hcnt
      simp only [assignedIds, createCount, Op.isCreate, if_false]
      rw [ih, h1]
      simp
    | delete id =>
      have h1 : (runOp t f (Op.delete id)).1.idCounter = t.idCounter := by
        simpa [Op.isCreate] using hcnt
      simp only [assignedIds, createCount, Op.isCreate, if_false]
      rw [ih, h1]
      simp
    | save res =>
      have h1 : (runOp t f (Op.save res)).1.idCounter = t.idCounter := by
        simpa [Op.isCreate] using hcnt
      simp only [assignedIds, createCount, Op.isCreate, if_false]
      rw [ih, h1]
      simp
    | load =>
      have h1 : (runOp t f Op.load).1.idCounter = t.idCounter := by
        simpa [Op.isCreate] using hcnt
      simp only [assignedIds, createCount, Op.isCreate, if_false]
      rw [ih, h1]
      simp

lemma chain'_cast_add_one (n : ℕ) :
    List.Chain' (fun a b => b = a + 1) ((List.range n).map fun i : ℕ => (i : ℤ) + 1) := by
  rw [List.chain'_map]
  cases n with
  | zero => simp
  | succ m =>
    rw [List.chain'_range_succ]
    intro i _
    push_cast
    ring

lemma nodup_cast_add_one (n : ℕ) : (((List.range n).map fun i : ℕ => (i : ℤ) + 1)).Nodup := by
  refine List.Nodup.map ?_ (List.nodup_range n)
  intro a b hab
  have h' : (a : ℤ) + 1 = (b : ℤ) + 1 := hab
  omega

/-- C1: starting from the initial store, any operation trace (creates
interleaved with deletes or anything else) hands out create ids 1, 2, …, n
in order: consecutive ids differ by exactly 1 — each is the previous counter
value plus one — and no id is ever assigned twice, deletions notwithstanding. -/
theorem create_ids_sequential (f : DiskFile) (ops : List Op) :
    assignedIds initialTodoList f ops
      = (List.range (createCount ops)).map (fun i : ℕ => (i : ℤ) + 1) ∧
    List.Chain' (fun a b => b = a + 1) (assignedIds initialTodoList f ops) ∧
    (assignedIds initialTodoList f ops).Nodup := by
  have h := assignedIds_formula ops initialTodoList f
  have hfun : (fun i : ℕ => initialTodoList.idCounter + 1 + (i : ℤ))
      = fun i : ℕ => (i : ℤ) + 1 := by
    funext i
    show (0 : ℤ) + 1 + (i : ℤ) = (i : ℤ) + 1
    ring
  rw [hfun] at h
  exact ⟨h, h ▸ chain'_cast_add_one (createCount ops), h ▸ nodup_cast_add_one (createCount ops)⟩

/-! ### C2: the store invariant -/

lemma storeInv_initial : storeInv initialTodoList := by
  constructor <;> simp [initialTodoList, storeInv]

lemma storeInv_runOp (t : TodoList) (f : DiskFile) (op : Op)
    (hop : op.isLoad = false) (h : storeInv t) : storeInv (runOp t f op).1 := by
  obtain ⟨hnd, hle⟩ := h
  cases op with
  | create title now =>
    simp only [runOp, CreateTodo, storeInv, List.map_append, List.map_cons, List.map_nil]
    constructor
    · rw [List.nodup_append]
      refine ⟨hnd, List.nodup_singleton _, ?_⟩
      intro a ha hb
      have h1 : a ≤ t.idCounter := hle a ha
      have h2 : a = t.idCounter + 1 := by simpa using hb
      omega
    · intro i hi
      rcases List.mem_append.mp hi with hi' | hi'
      · have := hle i hi'
        omega
      · have : i = t.idCounter + 1 := by simpa using hi'
        omega
  | update id nt c =>
    cases hu : updateTodos t.todos id nt c with
    | none =>
      simp only [runOp, UpdateTodo, hu]
      exact ⟨hnd, hle⟩
    | some l' =>
      have hm := updateTodos_map_id t.todos id nt c l' hu
      simp only [runOp, UpdateTodo, hu, storeInv]
      constructor
      · rw [hm]; exact hnd
      · intro i hi
        rw [hm] at hi
        exact hle i hi
  | delete id =>
    cases hd : deleteTodos t.todos id with
    | none =>
      simp only [runOp, DeleteTodo, hd]
      exact ⟨hnd, hle⟩
    | some l' =>
      have hsub := (deleteTodos_sublist t.todos id l' hd).map Todo.id
      simp only [runOp, DeleteTodo, hd, storeInv]
      exact ⟨hnd.sublist hsub, fun i hi => hle i (hsub.subset hi)⟩
  | save res =>
    cases res with
    | ok => exact ⟨hnd, hle⟩
    | createErr => exact ⟨hnd, hle⟩
    | encodeErr => exact ⟨hnd, hle⟩
  | load => simp [Op.isLoad] at hop

lemma storeInv_runOps (ops : List Op) : ∀ (t : TodoList) (f : DiskFile),
    (∀ op ∈ ops, op.isLoad = false) → storeInv t → storeInv (runOps t f ops).1 := by
  induction ops with
  | nil =>
    intro t f _ ht
    simpa [runOps] using ht
  | cons op rest ih =>
    intro t f h ht
    simp only [runOps]
    exact ih _ _ (fun o ho => h o (List.mem_cons_of_mem _ ho))
      (storeInv_runOp t f op (h op (List.mem_cons_self _ _)) ht)

/-- C2 counterexample: a reachable state (load a file whose only record has
id 1 while the fresh counter is 0) violates the claimed invariant: the
record's id exceeds the counter. -/
theorem storeInv_fails_after_load :
    ¬ storeInv (runOps initialTodoList (DiskFile.valid [dupTodoA]) [Op.load]).1 := by
  intro h
  have h1 : (1 : ℤ) ≤ 0 := h.2 1 (by decide)
  omega

/-- C2 amended: in every state reachable from the initial store by Create,
Update, Delete and Save operations (no Load), task ids are pairwise distinct
and every id is at most the current counter. -/
theorem storeInv_reachable_without_load (f : DiskFile) (ops : List Op)
    (h : ∀ op ∈ ops, op.isLoad = false) :
    storeInv (runOps initialTodoList f ops).1 :=
  storeInv_runOps ops initialTodoList f h storeInv_initial

/-- Witness for amended C2: the invariant holds after create, create,
delete 1, create on the fresh store. -/
theorem storeInv_reachable_without_load_witness :
    storeInv (runOps initialTodoList DiskFile.missing
      [Op.create "a" 0, Op.create "b" 1, Op.delete 1, Op.create "c" 2]).1 :=
  storeInv_reachable_without_load DiskFile.missing
    [Op.create "a" 0, Op.create "b" 1, Op.delete 1, Op.create "c" 2] (by decide)

/-- The id recorded by `assignedIds` for a create is exactly the id stored in
the appended record: `CreateTodo` appends a record carrying `counter + 1`. -/
lemma createTodo_appends_id (t : TodoList) (title : String) (now : Nat) :
    (CreateTodo t title now).todos.map Todo.id = t.todos.map Todo.id ++ [t.idCounter + 1] := by
  simp [CreateTodo]
